import Mathlib

/-!
A shallow embedding of `src/Poker/poker.py` (class `PokerGame`), together with
theorems settling the specification's claims about it.

Modelling conventions:
* A `Card` is its two/three-character token string (`"As"`, `"10h"`, ...),
  exactly the values the Python code stores in its lists.
* The external `deuces` evaluator is a capability: every operation that calls
  `self.evaluator.evaluate(...)` takes an evaluation function as an explicit
  argument (`ef`/`evalRaw`), standing for the composite
  `evaluate([Card.new(c) for c in hand], [Card.new(c) for c in community])`
  (respectively the un-converted call in `calculate_hand_probability`).
  Per the evaluator's convention a lower score denotes a stronger hand.
* `random.sample(population, 2)` is modelled by an oracle argument
  `sample : List Card -> List Card` giving the two cards drawn from the
  population handed to it; theorems quantify over the oracle.
* Python exceptions are `Except PyErr`; an operation that mutates `self`
  before an exception can escape returns its state alongside the result.
* `self.deck` has two distinct run-time representations in the source:
  the list of token strings built by `__init__` and the `deuces.Deck`
  object (holding int-encoded cards) assigned by `new_game`; `DeckRepr`
  records which one is present, since the operations behave differently
  (`card in self.deck`, `random.sample(self.deck, 2)` and
  `remaining_deck.pop()` raise `TypeError`/`AttributeError` on a
  `deuces.Deck`, and `self.deck.cards` raises `AttributeError` on a list).
-/

/-- A card token: rank characters concatenated with a suit character. -/
abbrev Card := String

/-- The Python exceptions the embedded operations can raise. -/
inductive PyErr where
  | attributeError
  | keyError
  | valueError
  | indexError
  | typeError
  deriving DecidableEq

instance exceptDecEq {ε α : Type} [DecidableEq ε] [DecidableEq α] :
    DecidableEq (Except ε α) := fun x y =>
  match x, y with
  | Except.ok a, Except.ok b =>
    if h : a = b then isTrue (by rw [h])
    else isFalse (by intro hh; injection hh; contradiction)
  | Except.error e, Except.error f =>
    if h : e = f then isTrue (by rw [h])
    else isFalse (by intro hh; injection hh; contradiction)
  | Except.ok _, Except.error _ => isFalse (by intro hh; injection hh)
  | Except.error _, Except.ok _ => isFalse (by intro hh; injection hh)

/-- The two run-time representations `self.deck` takes in the source:
`strList` is the list of token strings built by `__init__` (and maintained by
`update_board`/`reveal_card`/dealing); `deucesDeck` is the `deuces.Deck`
object assigned by `new_game`, whose `.cards` field holds the 52 int-encoded
cards in shuffled order. -/
inductive DeckRepr where
  | strList : List Card → DeckRepr
  | deucesDeck : List Nat → DeckRepr
  deriving DecidableEq

/-- A Python dict key as used on `self.players_hands`: the source indexes it
with the string `"player1"` everywhere except `get_beating_hands`, which
indexes it with the integer `0`. -/
abbrev PKey := Sum String Nat

/-- Lookup in a Python dict (association list); `none` models a `KeyError`. -/
def dictGet (k : PKey) : List (PKey × List Card) → Option (List Card)
  | [] => none
  | (k2, v) :: rest => if k2 = k then some v else dictGet k rest

/-- Assignment `d[k] = v` on a Python dict kept as an association list:
replaces the value of an existing key in place, appends a fresh key. -/
def assocSet : List (String × List Card) → String → List Card → List (String × List Card)
  | [], k, v => [(k, v)]
  | (k2, v2) :: rest, k, v =>
    if k2 = k then (k, v) :: rest else (k2, v2) :: assocSet rest k v

/-- The persistent state of a `PokerGame` instance: its `self.deck`,
`self.num_players`, `self.players_hands`, `self.opponents_hands`,
`self.board` and `self.burned_cards` fields. -/
structure GameState where
  deck : DeckRepr
  num_players : Nat
  players_hands : List (PKey × List Card)
  opponents_hands : List (String × List Card)
  board : List Card
  burned_cards : List Card
  deriving DecidableEq

/-- The rank characters, in the order `__init__` lists them. -/
def ranks : List String :=
  ["2", "3", "4", "5", "6", "7", "8", "9", "10", "J", "Q", "K", "A"]

/-- The suit characters, in the order `__init__` lists them. -/
def suits : List String := ["h", "d", "c", "s"]

/-- The deck `__init__` builds:
`[rank + suit for rank in ranks for suit in suits]`. -/
def fullDeck : List Card := ranks.flatMap fun r => suits.map fun s => r ++ s

/-- The names of the opponents, `[f"player{i}" for i in range(2, num_players + 1)]`,
each mapped to an empty hand. -/
def freshOpponents (num_players : Nat) : List (String × List Card) :=
  (List.range' 2 (num_players - 1)).map fun i => ("player" ++ toString i, ([] : List Card))

/-- `PokerGame.__init__(num_players, hole_cards)`: builds the full 52-token
deck, stores the hole cards under `"player1"`, gives every opponent an empty
hand, and starts with empty board and burned pile.  Note that the hole cards
are not removed from the deck. -/
def PokerGame.init (num_players : Nat) (hole_cards : List Card) : GameState :=
  { deck := DeckRepr.strList fullDeck
    num_players := num_players
    players_hands := [(Sum.inl "player1", hole_cards)]
    opponents_hands := freshOpponents num_players
    board := []
    burned_cards := [] }

/-- `update_board(*args)`: for each card in order, if it is in the deck it is
appended to the board and removed from the deck; otherwise an error message is
printed for it (collected here as the second component) and processing
continues with the remaining cards.  On a `deuces.Deck` the very first
membership test `card in self.deck` raises `TypeError`, before any mutation. -/
def update_board : GameState → List Card → Except PyErr (GameState × List Card)
  | s, [] => Except.ok (s, [])
  | s, c :: rest =>
    match s.deck with
    | DeckRepr.deucesDeck _ => Except.error PyErr.typeError
    | DeckRepr.strList l =>
      if c ∈ l then
        update_board
          { s with board := s.board ++ [c], deck := DeckRepr.strList (l.erase c) } rest
      else
        match update_board s rest with
        | Except.ok (s2, errs) => Except.ok (s2, c :: errs)
        | Except.error e => Except.error e

/-- `reveal_card(card)`: moves the card from the deck to the burned pile if
present, otherwise prints an error for it (returned as the second component). -/
def reveal_card (s : GameState) (card : Card) : Except PyErr (GameState × List Card) :=
  match s.deck with
  | DeckRepr.deucesDeck _ => Except.error PyErr.typeError
  | DeckRepr.strList l =>
    if card ∈ l then
      Except.ok
        ({ s with burned_cards := s.burned_cards ++ [card],
                  deck := DeckRepr.strList (l.erase card) }, [])
    else
      Except.ok (s, [card])

/-- `new_game(num_players, hole_cards)`: resets every zone, but assigns
`self.deck = Deck()` — the `deuces` Deck object holding the 52 int-encoded
cards in shuffled order.  The shuffle outcome is the `shuffled` oracle
argument. -/
def new_game (s : GameState) (num_players : Nat) (hole_cards : List Card)
    (shuffled : List Nat) : GameState :=
  { s with
    num_players := num_players
    players_hands := [(Sum.inl "player1", hole_cards)]
    opponents_hands := freshOpponents num_players
    deck := DeckRepr.deucesDeck shuffled
    board := []
    burned_cards := [] }

/-- The loop of `deal_opponent_hands`: for each opponent name in insertion
order, `random.sample(self.deck, 2)` (which raises `TypeError` on a
`deuces.Deck` and `ValueError` when fewer than 2 cards remain) is assigned to
that opponent, and the deck is rebuilt without the sampled cards
(`[card for card in self.deck if card not in hand]`).  Returns the dict, the
deck and the exception that escaped, if any; assignments made before an
exception stay in place. -/
def dealLoop (sample : List Card → List Card) :
    List String → List (String × List Card) → DeckRepr →
    List (String × List Card) × DeckRepr × Option PyErr
  | [], hands, deck => (hands, deck, none)
  | _ :: _, hands, DeckRepr.deucesDeck l => (hands, DeckRepr.deucesDeck l, some PyErr.typeError)
  | k :: rest, hands, DeckRepr.strList deck =>
    if deck.length < 2 then (hands, DeckRepr.strList deck, some PyErr.valueError)
    else
      let h := sample deck
      dealLoop sample rest (assocSet hands k h)
        (DeckRepr.strList (deck.filter fun c => ! h.contains c))

/-- `deal_opponent_hands()`: reassigns a fresh 2-card sample to every opponent
(removing the sampled cards from the persistent deck) and returns
`list(self.opponents_hands.values())`. -/
def deal_opponent_hands (sample : List Card → List Card) (s : GameState) :
    GameState × Except PyErr (List (List Card)) :=
  match dealLoop sample (s.opponents_hands.map Prod.fst) s.opponents_hands s.deck with
  | (hands, deck2, none) =>
    ({ s with opponents_hands := hands, deck := deck2 }, Except.ok (hands.map Prod.snd))
  | (hands, deck2, some e) =>
    ({ s with opponents_hands := hands, deck := deck2 }, Except.error e)

/-- The number of community cards the trial loops try to draw:
`range(5 - len(self.board) - len(self.burned_cards))` iterates that many times
when the difference is positive and zero times otherwise. -/
def missingCount (board burned : List Card) : Nat :=
  ((5 : Int) - board.length - burned.length).toNat

/-- `remaining_board.append(remaining_deck.pop())` iterated `n` times:
each step removes the last element of the trial deck and appends it to the
trial board; popping an empty list raises `IndexError`.  Returns the remaining
trial deck and the extended trial board. -/
def popDraw : Nat → List Card → List Card → Except PyErr (List Card × List Card)
  | 0, deck, board => Except.ok (deck, board)
  | n + 1, deck, board =>
    match deck.getLast? with
    | none => Except.error PyErr.indexError
    | some c => popDraw n deck.dropLast (board ++ [c])

/-- One trial's community-card completion, shared verbatim by
`simulate_remaining_game` and `calculate_hand_probability`: deep-copy the
persistent deck and board, then pop `missingCount` cards from the end of the
copied deck onto the copied board.  On a `deuces.Deck` the first
`remaining_deck.pop()` raises `AttributeError` (the object has no `pop`). -/
def trialDrawBoard : DeckRepr → List Card → List Card → Except PyErr (List Card)
  | DeckRepr.strList deck, board, burned =>
    match popDraw (missingCount board burned) deck board with
    | Except.ok (_, newBoard) => Except.ok newBoard
    | Except.error e => Except.error e
  | DeckRepr.deucesDeck _, board, burned =>
    if missingCount board burned = 0 then Except.ok board
    else Except.error PyErr.attributeError

/-- One trial of `simulate_remaining_game`: complete the board, form
`all_community_cards = remaining_board + remaining_burned`, score the player's
hole cards and every supplied opponent hand against it, and report whether
`all(player_score > score for score in opponent_scores)` — the code counts the
trial as a win when the player's score is strictly greater than every
opponent score.  (The body's `opponent_hands = [hand for hand in
opponent_hands]` only rebinds a copy and is omitted.) -/
def simTrial (ef : List Card → List Card → Int) (s : GameState)
    (opponent_hands : List (List Card)) : Except PyErr Bool :=
  match trialDrawBoard s.deck s.board s.burned_cards with
  | Except.error e => Except.error e
  | Except.ok remaining_board =>
    let community := remaining_board ++ s.burned_cards
    match dictGet (Sum.inl "player1") s.players_hands with
    | none => Except.error PyErr.keyError
    | some ph =>
      let player_score := ef ph community
      Except.ok ((opponent_hands.map fun h => ef h community).all
        fun score => decide (score < player_score))

/-- The `for _ in range(10000)` loop of `simulate_remaining_game`, counting
winning trials.  Nothing the loop body reads is mutated between iterations
(each trial deep-copies the same persistent zones), so the trial computation
is a fixed function of the call's arguments. -/
def simLoop (ef : List Card → List Card → Int) (s : GameState)
    (opponent_hands : List (List Card)) : Nat → Nat → Except PyErr Nat
  | 0, cnt => Except.ok cnt
  | n + 1, cnt =>
    match simTrial ef s opponent_hands with
    | Except.error e => Except.error e
    | Except.ok win => simLoop ef s opponent_hands n (cnt + if win then 1 else 0)

/-- `simulate_remaining_game(opponent_hands)`: runs 10000 trials and returns
`win_count / 10000`. -/
def simulate_remaining_game (ef : List Card → List Card → Int) (s : GameState)
    (opponent_hands : List (List Card)) : Except PyErr ℚ :=
  match simLoop ef s opponent_hands 10000 0 with
  | Except.error e => Except.error e
  | Except.ok cnt => Except.ok ((cnt : ℚ) / 10000)

/-- `calculate_win_probabilities()`: in the empty-board-and-burned branch the
list returned by `deal_opponent_hands()` is passed to
`simulate_remaining_game` directly; the flop/turn/river branch and the
showdown branch instead evaluate `list(self.deal_opponent_hands().values())`
— `.values()` on a list raises `AttributeError` after the deal has already
mutated the persistent state. -/
def calculate_win_probabilities (sample : List Card → List Card)
    (ef : List Card → List Card → Int) (s : GameState) :
    GameState × Except PyErr ℚ :=
  if s.board.length = 0 ∧ s.burned_cards.length = 0 then
    match deal_opponent_hands sample s with
    | (s2, Except.ok hands) => (s2, simulate_remaining_game ef s2 hands)
    | (s2, Except.error e) => (s2, Except.error e)
  else if s.board.length < 5 then
    match deal_opponent_hands sample s with
    | (s2, Except.ok _) => (s2, Except.error PyErr.attributeError)
    | (s2, Except.error e) => (s2, Except.error e)
  else
    match deal_opponent_hands sample s with
    | (s2, Except.ok _) => (s2, Except.error PyErr.attributeError)
    | (s2, Except.error e) => (s2, Except.error e)

/-- One trial of `calculate_hand_probability`: complete the board as in
`simulate_remaining_game`, evaluate the player's raw hand (its result is
unused by the hit test), then call `self.deal_opponent_hands()` — mutating the
persistent state — and report whether
`any(score >= hand_type_score for score in opponent_scores)`. -/
def hitTrial (sample : List Card → List Card)
    (evalRaw : List Card → List Card → Int) (threshold : Int) (s : GameState) :
    GameState × Except PyErr Bool :=
  match trialDrawBoard s.deck s.board s.burned_cards with
  | Except.error e => (s, Except.error e)
  | Except.ok remaining_board =>
    let community := remaining_board ++ s.burned_cards
    match dictGet (Sum.inl "player1") s.players_hands with
    | none => (s, Except.error PyErr.keyError)
    | some ph =>
      let _player_score := evalRaw ph community
      match deal_opponent_hands sample s with
      | (s2, Except.error e) => (s2, Except.error e)
      | (s2, Except.ok hands) =>
        (s2, Except.ok ((hands.map fun h => evalRaw h community).any
          fun score => decide (threshold ≤ score)))

/-- The `for _ in range(10000)` loop of `calculate_hand_probability`, counting
hit trials; unlike `simLoop` it threads the persistent state, which each trial
mutates through `deal_opponent_hands`. -/
def hitLoop (sample : List Card → List Card)
    (evalRaw : List Card → List Card → Int) (threshold : Int) :
    Nat → GameState → Nat → GameState × Except PyErr Nat
  | 0, s, cnt => (s, Except.ok cnt)
  | n + 1, s, cnt =>
    match hitTrial sample evalRaw threshold s with
    | (s2, Except.error e) => (s2, Except.error e)
    | (s2, Except.ok hit) => hitLoop sample evalRaw threshold n s2 (cnt + if hit then 1 else 0)

/-- Lookup in the evaluator's hand-category registry. -/
def strLookup (k : String) : List (String × Int) → Option Int
  | [] => none
  | (k2, v) :: rest => if k2 = k then some v else strLookup k rest

/-- `calculate_hand_probability(hand_type)`.  Modelled from the spec: the
external evaluator's `HAND_EVAL` registry (hand-category name to minimum
score threshold), which lives in the `deuces` package outside this
repository, is the `handEval` argument.  An unknown hand type prints an error
and returns `None`; otherwise 10000 trials are run and `win_count / 10000`
returned. -/
def calculate_hand_probability (sample : List Card → List Card)
    (evalRaw : List Card → List Card → Int) (handEval : List (String × Int))
    (s : GameState) (hand_type : String) :
    GameState × Except PyErr (Option ℚ) :=
  match strLookup hand_type handEval with
  | none => (s, Except.ok none)
  | some threshold =>
    match hitLoop sample evalRaw threshold 10000 s 0 with
    | (s2, Except.error e) => (s2, Except.error e)
    | (s2, Except.ok cnt) => (s2, Except.ok (some ((cnt : ℚ) / 10000)))

/-- `itertools.combinations(l, 2)`, in the same order. -/
def combinations2 {α : Type} : List α → List (α × α)
  | [] => []
  | x :: rest => (rest.map fun y => (x, y)) ++ combinations2 rest

/-- `get_beating_hands()`: iterates `combinations(self.deck.cards, 2)`.  When
the deck is the token-string list built by `__init__`, `self.deck.cards`
raises `AttributeError` at once.  When the deck is a `deuces.Deck` (after
`new_game`) and at least one combination exists, the first loop iteration
evaluates the int-card combination concatenated with the string board (a call
the real evaluator rejects) and then reads `self.players_hands[0]`, whose keys
are the strings `"player1"`, ..., raising `KeyError`; we model the failure at
that lookup.  Its comparison, when reached, collects combinations with
`opponent_score > player_score`. -/
def get_beating_hands (_ef : List Card → List Card → Int) (s : GameState) :
    Except PyErr (List (List Card)) :=
  match s.deck with
  | DeckRepr.strList _ => Except.error PyErr.attributeError
  | DeckRepr.deucesDeck cards =>
    if (combinations2 cards).isEmpty then Except.ok []
    else Except.error PyErr.keyError

/-- A concrete evaluator used to exhibit the inverted win test: it scores the
player's hole cards 1 and every other hand 2 (lower is stronger). -/
def efC1 : List Card → List Card → Int :=
  fun hand _ => if hand = ["As", "7d"] then 1 else 2

/-- A concrete evaluator giving every hand the same score. -/
def efZero : List Card → List Card → Int := fun _ _ => 0

/-- A concrete realization of the `random.sample(population, 2)` oracle: the
first two cards of the population (two distinct members, as `random.sample`
guarantees). -/
def sampleTake2 : List Card → List Card := fun l => l.take 2

/-- A freshly constructed game whose board already holds five community
cards, so the trial loops have no cards left to draw. -/
def showdownState : GameState :=
  { PokerGame.init 2 ["As", "7d"] with board := ["2c", "3c", "4c", "5c", "6c"] }

/-- A small state whose deck holds exactly the two tokens "2h" and "3h". -/
def twoCardState : GameState :=
  { deck := DeckRepr.strList ["2h", "3h"]
    num_players := 2
    players_hands := [(Sum.inl "player1", ["As", "7d"])]
    opponents_hands := [("player2", [])]
    board := []
    burned_cards := [] }

theorem popDraw_ok : ∀ (n : Nat) (deck board : List Card), n ≤ deck.length →
    ∃ deckRem drawn, popDraw n deck board = Except.ok (deckRem, board ++ drawn) ∧
      drawn.length = n := by
  intro n
  induction n with
  | zero => intro deck board _; exact ⟨deck, [], by simp [popDraw], rfl⟩
  | succ k ih =>
    intro deck board hlen
    have hne : deck ≠ [] := by
      intro h; subst h; simp at hlen
    cases hg : deck.getLast? with
    | none => exact absurd (List.getLast?_eq_none_iff.mp hg) hne
    | some c =>
      have hdl : k ≤ deck.dropLast.length := by
        have := List.length_dropLast deck
        omega
      obtain ⟨dr, drawn, hpd, hlen2⟩ := ih deck.dropLast (board ++ [c]) hdl
      refine ⟨dr, c :: drawn, ?_, by simp [hlen2]⟩
      simp [popDraw, hg, hpd]

theorem trialDrawBoard_ok (deck board burned : List Card)
    (h : missingCount board burned ≤ deck.length) :
    ∃ drawn, trialDrawBoard (DeckRepr.strList deck) board burned = Except.ok (board ++ drawn) ∧
      drawn.length = missingCount board burned := by
  obtain ⟨dr, drawn, hpd, hlen⟩ := popDraw_ok (missingCount board burned) deck board h
  exact ⟨drawn, by simp [trialDrawBoard, hpd], hlen⟩

theorem simTrial_ok (ef : List Card → List Card → Int) (s : GameState)
    (hands : List (List Card)) (deck ph : List Card)
    (h1 : s.deck = DeckRepr.strList deck)
    (h2 : missingCount s.board s.burned_cards ≤ deck.length)
    (h3 : dictGet (Sum.inl "player1") s.players_hands = some ph) :
    ∃ w, simTrial ef s hands = Except.ok w := by
  obtain ⟨drawn, hd, _⟩ := trialDrawBoard_ok deck s.board s.burned_cards h2
  refine ⟨(hands.map fun h => ef h (s.board ++ drawn ++ s.burned_cards)).all
    (fun score => decide (score < ef ph (s.board ++ drawn ++ s.burned_cards))), ?_⟩
  simp [simTrial, h1, hd, h3]

theorem simLoop_const (ef : List Card → List Card → Int) (s : GameState)
    (hands : List (List Card)) (w : Bool)
    (h : simTrial ef s hands = Except.ok w) :
    ∀ (n cnt : Nat), simLoop ef s hands n cnt = Except.ok (cnt + if w then n else 0) := by
  intro n
  induction n with
  | zero => intro cnt; simp [simLoop]
  | succ k ih =>
    intro cnt
    cases w with
    | false => simp [simLoop, h, ih]
    | true =>
      simp only [simLoop, h, ih, if_true]
      have : cnt + 1 + k = cnt + (k + 1) := by omega
      simp [this]

theorem simulate_of_trial (ef : List Card → List Card → Int) (s : GameState)
    (hands : List (List Card)) (w : Bool)
    (h : simTrial ef s hands = Except.ok w) :
    simulate_remaining_game ef s hands = Except.ok (if w then (1 : ℚ) else 0) := by
  unfold simulate_remaining_game
  rw [simLoop_const ef s hands w h 10000 0]
  cases w <;> norm_num

theorem simulate_of_trial_err (ef : List Card → List Card → Int) (s : GameState)
    (hands : List (List Card)) (e : PyErr)
    (h : simTrial ef s hands = Except.error e) :
    simulate_remaining_game ef s hands = Except.error e := by
  unfold simulate_remaining_game
  have h10 : (10000 : Nat) = 9999 + 1 := by norm_num
  rw [h10]
  simp [simLoop, h]

theorem update_board_ok : ∀ (cards : List Card) (s : GameState) (l : List Card),
    s.deck = DeckRepr.strList l →
    ∃ s2 errs, update_board s cards = Except.ok (s2, errs) := by
  intro cards
  induction cards with
  | nil => intro s l _; exact ⟨s, [], rfl⟩
  | cons c rest ih =>
    intro s l hdeck
    by_cases hmem : c ∈ l
    · obtain ⟨s2, errs, h2⟩ :=
        ih { s with board := s.board ++ [c], deck := DeckRepr.strList (l.erase c) } (l.erase c) rfl
      exact ⟨s2, errs, by simp [update_board, hdeck, hmem, h2]⟩
    · obtain ⟨s2, errs, h2⟩ := ih s l hdeck
      exact ⟨s2, c :: errs, by simp [update_board, hdeck, hmem, h2]⟩

theorem deal_frame (sample : List Card → List Card) (s : GameState) :
    (deal_opponent_hands sample s).1.board = s.board ∧
    (deal_opponent_hands sample s).1.burned_cards = s.burned_cards ∧
    (deal_opponent_hands sample s).1.players_hands = s.players_hands := by
  unfold deal_opponent_hands
  rcases hd : dealLoop sample (s.opponents_hands.map Prod.fst) s.opponents_hands s.deck
    with ⟨hands, deck2, _ | e⟩ <;> simp

theorem hitTrial_frame (sample : List Card → List Card)
    (evalRaw : List Card → List Card → Int) (threshold : Int) (s : GameState) :
    (hitTrial sample evalRaw threshold s).1.board = s.board ∧
    (hitTrial sample evalRaw threshold s).1.burned_cards = s.burned_cards ∧
    (hitTrial sample evalRaw threshold s).1.players_hands = s.players_hands := by
  unfold hitTrial
  cases htd : trialDrawBoard s.deck s.board s.burned_cards with
  | error e => simp
  | ok rb =>
    cases hpg : dictGet (Sum.inl "player1") s.players_hands with
    | none => simp
    | some ph =>
      have hdf := deal_frame sample s
      rcases hdd : deal_opponent_hands sample s with ⟨s2, exc⟩
      rw [hdd] at hdf
      cases exc <;> simpa using hdf

theorem hitLoop_frame (sample : List Card → List Card)
    (evalRaw : List Card → List Card → Int) (threshold : Int) :
    ∀ (n : Nat) (s : GameState) (cnt : Nat),
    (hitLoop sample evalRaw threshold n s cnt).1.board = s.board ∧
    (hitLoop sample evalRaw threshold n s cnt).1.burned_cards = s.burned_cards ∧
    (hitLoop sample evalRaw threshold n s cnt).1.players_hands = s.players_hands := by
  intro n
  induction n with
  | zero => intro s cnt; exact ⟨rfl, rfl, rfl⟩
  | succ k ih =>
    intro s cnt
    have htf := hitTrial_frame sample evalRaw threshold s
    rcases hht : hitTrial sample evalRaw threshold s with ⟨s2, exc⟩
    rw [hht] at htf
    simp only at htf
    cases exc with
    | error e => simp [hitLoop, hht, htf]
    | ok hit =>
      have hrec := ih s2 (cnt + if hit then 1 else 0)
      simp only [hitLoop, hht]
      exact ⟨hrec.1.trans htf.1, hrec.2.1.trans htf.2.1, hrec.2.2.trans htf.2.2⟩

/-- C1: the claim says a trial counts as a player win iff the player's score
is strictly lower (stronger) than every opponent score.  The code instead
tests `all(player_score > score ...)`.  With an evaluator scoring the
player's hand 1 and the opponent's 2 — the player strictly lower, hence a
win under the claim — `simulate_remaining_game` counts zero wins and returns
probability 0. -/
theorem C1_win_condition_inverted :
    efC1 ["As", "7d"] ["As", "Ac", "Ad", "Ah", "Ks"] = 1 ∧
    efC1 ["2h", "3h"] ["As", "Ac", "Ad", "Ah", "Ks"] = 2 ∧
    simulate_remaining_game efC1 (PokerGame.init 2 ["As", "7d"]) [["2h", "3h"]] =
      Except.ok 0 := by
  refine ⟨by decide, by decide, ?_⟩
  have h : simTrial efC1 (PokerGame.init 2 ["As", "7d"]) [["2h", "3h"]] = Except.ok false := by
    decide
  rw [simulate_of_trial efC1 _ _ false h]
  norm_num

/-- C2: the claim says Deck, PlayerHand, OpponentHands, Board and BurnedCards
are pairwise disjoint in every reachable state, including immediately after
construction.  In the state built by `__init__(2, ["As", "7d"])` the deck is
the untouched full 52-card list while the player's hand holds "As" and "7d",
so Deck and PlayerHand share two cards. -/
theorem C2_init_hole_cards_left_in_deck :
    (PokerGame.init 2 ["As", "7d"]).deck = DeckRepr.strList fullDeck ∧
    "As" ∈ fullDeck ∧ "7d" ∈ fullDeck ∧
    dictGet (Sum.inl "player1") (PokerGame.init 2 ["As", "7d"]).players_hands =
      some ["As", "7d"] := ⟨rfl, by decide, by decide, rfl⟩

/-- C3, counterexample: the claim says `calculate_win_probabilities` leaves
the persistent Deck unchanged.  On a fresh game with one opponent (and any
admissible `random.sample` outcome, here the first two deck cards) the call
removes the dealt cards from the persistent deck. -/
theorem C3_counterexample_deck_mutated :
    (calculate_win_probabilities sampleTake2 efZero (PokerGame.init 2 ["As", "7d"])).1.deck ≠
      (PokerGame.init 2 ["As", "7d"]).deck := by decide

/-- C3, amended: the estimation operations leave Board, BurnedCards and
PlayerHand unchanged, for every state, sampler, evaluator and hand type; Deck
and OpponentHands, however, are mutated by the `deal_opponent_hands` calls
both operations make (see the counterexample). -/
theorem C3_amended_frame :
    ∀ (sample : List Card → List Card) (ef evalRaw : List Card → List Card → Int)
      (handEval : List (String × Int)) (s : GameState) (hand_type : String),
      ((calculate_win_probabilities sample ef s).1.board = s.board ∧
       (calculate_win_probabilities sample ef s).1.burned_cards = s.burned_cards ∧
       (calculate_win_probabilities sample ef s).1.players_hands = s.players_hands) ∧
      ((calculate_hand_probability sample evalRaw handEval s hand_type).1.board = s.board ∧
       (calculate_hand_probability sample evalRaw handEval s hand_type).1.burned_cards =
         s.burned_cards ∧
       (calculate_hand_probability sample evalRaw handEval s hand_type).1.players_hands =
         s.players_hands) := by
  intro sample ef evalRaw handEval s hand_type
  constructor
  · have hdf := deal_frame sample s
    rcases hdd : deal_opponent_hands sample s with ⟨s2, exc⟩
    rw [hdd] at hdf
    simp only at hdf
    unfold calculate_win_probabilities
    split_ifs <;> cases exc <;> simp [hdd] <;> exact hdf
  · unfold calculate_hand_probability
    cases hsl : strLookup hand_type handEval with
    | none => simp
    | some threshold =>
      have hlf := hitLoop_frame sample evalRaw threshold 10000 s 0
      rcases hhl : hitLoop sample evalRaw threshold 10000 s 0 with ⟨s2, exc⟩
      rw [hhl] at hlf
      simp only at hlf
      cases exc <;> simp [hhl] <;> exact hlf

/-- C4: the claim says every branch of `calculate_win_probabilities` behaves
identically (a Monte Carlo simulation over freshly dealt opponents).  In a
post-flop state (three board cards) the taken branch evaluates
`list(self.deal_opponent_hands().values())` — `.values()` on the list
returned by `deal_opponent_hands` — and raises `AttributeError` instead of
simulating, unlike the empty-board branch. -/
theorem C4_postflop_branch_attribute_error :
    (calculate_win_probabilities sampleTake2 efZero
      { PokerGame.init 2 ["As", "7d"] with board := ["2c", "3c", "4c"] }).2 =
      Except.error PyErr.attributeError := by decide

/-- C5: the claim says `get_beating_hands` returns exactly the 2-card deck
combinations whose score beats the player's.  On a freshly constructed game
the call raises `AttributeError` immediately (`self.deck.cards` on a plain
list; had the deck been a `deuces.Deck`, `self.players_hands[0]` would raise
`KeyError`, and the comparison that would follow collects the hands with the
strictly greater — weaker — score). -/
theorem C5_get_beating_hands_raises :
    get_beating_hands efZero (PokerGame.init 2 ["As", "7d"]) =
      Except.error PyErr.attributeError := rfl

/-- C6: the claim says `new_game` leaves a full fresh deck in the same
representation the other operations accept.  For every prior state, arguments
and shuffle outcome, the deck after `new_game` is the `deuces.Deck` object of
int-encoded cards, on which `update_board`'s membership test raises
`TypeError` for every card token; the remaining zones are reset as claimed. -/
theorem C6_new_game_deck_representation :
    ∀ (s : GameState) (num_players : Nat) (hole_cards : List Card) (shuffled : List Nat),
      (new_game s num_players hole_cards shuffled).deck = DeckRepr.deucesDeck shuffled ∧
      (∀ (c : Card) (rest : List Card),
        update_board (new_game s num_players hole_cards shuffled) (c :: rest) =
          Except.error PyErr.typeError) ∧
      (new_game s num_players hole_cards shuffled).players_hands =
        [(Sum.inl "player1", hole_cards)] ∧
      (new_game s num_players hole_cards shuffled).board = [] ∧
      (new_game s num_players hole_cards shuffled).burned_cards = [] ∧
      ((new_game s num_players hole_cards shuffled).opponents_hands.map Prod.snd).all
        List.isEmpty = true := by
  intro s np hc shuffled
  refine ⟨rfl, ?_, rfl, rfl, rfl, ?_⟩
  · intro c rest
    simp [update_board, new_game]
  · show ((freshOpponents np).map Prod.snd).all List.isEmpty = true
    unfold freshOpponents
    rw [List.map_map, List.all_eq_true]
    intro x hx
    obtain ⟨i, hi, rfl⟩ := List.mem_map.mp hx
    rfl

/-- C7: on a token-list deck, `update_board` processes its arguments card by
card: a card in the current deck is appended to the board and erased from the
deck with no error recorded, and a card not in the current deck changes no
state, is recorded as an error, and processing continues with the remaining
cards — partial application, never an exception. -/
theorem C7_update_board_per_card :
    ∀ (s : GameState) (l : List Card) (c : Card) (rest : List Card),
      s.deck = DeckRepr.strList l →
      (c ∈ l →
        update_board s (c :: rest) =
          update_board { s with board := s.board ++ [c],
                                deck := DeckRepr.strList (l.erase c) } rest) ∧
      (c ∉ l →
        ∃ s2 errs, update_board s rest = Except.ok (s2, errs) ∧
          update_board s (c :: rest) = Except.ok (s2, c :: errs)) := by
  intro s l c rest hdeck
  constructor
  · intro hmem
    simp [update_board, hdeck, hmem]
  · intro hmem
    obtain ⟨s2, errs, h2⟩ := update_board_ok rest s l hdeck
    exact ⟨s2, errs, h2, by simp [update_board, hdeck, hmem, h2]⟩

/-- C7, witness: both branches of the per-card contract at concrete inputs —
"2h" is in the two-card deck and is moved to the board; "9z" is not and is
reported while the state is unchanged. -/
theorem C7_update_board_per_card_witness :
    (update_board twoCardState ["2h", "9z"] =
      update_board
        { twoCardState with
          board := twoCardState.board ++ ["2h"]
          deck := DeckRepr.strList (["2h", "3h"].erase "2h") } ["9z"]) ∧
    (∃ s2 errs, update_board twoCardState [] = Except.ok (s2, errs) ∧
      update_board twoCardState ["9z"] = Except.ok (s2, "9z" :: errs)) :=
  ⟨(C7_update_board_per_card twoCardState ["2h", "3h"] "2h" ["9z"] rfl).1 (by decide),
   (C7_update_board_per_card twoCardState ["2h", "3h"] "9z" [] rfl).2 (by decide)⟩

/-- C8, counterexample: the claim says `simulate_remaining_game` rejects an
opponent hand of fewer than 2 cards with an `IncompleteHand` error.  With a
one-card opponent hand the simulation runs to completion and returns a
probability — no validation exists in the code. -/
theorem C8_counterexample_partial_hand_simulated :
    (["Kh"] : List Card).length = 1 ∧
    simulate_remaining_game efZero showdownState [["Kh"]] = Except.ok 0 := by
  refine ⟨rfl, ?_⟩
  have h : simTrial efZero showdownState [["Kh"]] = Except.ok false := by decide
  rw [simulate_of_trial efZero _ _ false h]
  norm_num

/-- C8, amended: `simulate_remaining_game` performs no opponent-hand-size
validation: whenever the trial itself can run (token-list deck with enough
cards, player hand present), the call returns a probability even though some
opponent hand has fewer than 2 cards. -/
theorem C8_amended_no_validation :
    ∀ (ef : List Card → List Card → Int) (s : GameState) (hands : List (List Card))
      (deck ph : List Card),
      s.deck = DeckRepr.strList deck →
      missingCount s.board s.burned_cards ≤ deck.length →
      dictGet (Sum.inl "player1") s.players_hands = some ph →
      (∃ hand ∈ hands, hand.length < 2) →
      ∃ p, simulate_remaining_game ef s hands = Except.ok p := by
  intro ef s hands deck ph h1 h2 h3 _
  obtain ⟨w, hw⟩ := simTrial_ok ef s hands deck ph h1 h2 h3
  exact ⟨if w then 1 else 0, simulate_of_trial ef s hands w hw⟩

/-- C8, amended witness: the no-validation theorem applied at the concrete
showdown state with the one-card opponent hand `["Kh"]`. -/
theorem C8_amended_no_validation_witness :
    ∃ p, simulate_remaining_game efZero showdownState [["Kh"]] = Except.ok p :=
  C8_amended_no_validation efZero showdownState [["Kh"]] fullDeck ["As", "7d"]
    rfl (by decide) rfl ⟨["Kh"], by decide, by decide⟩

/-- C9: each trial's community-card completion (shared by
`simulate_remaining_game` and `calculate_hand_probability` through
`trialDrawBoard`) draws exactly `5 - len(board) - len(burned)` cards from the
trial-local deck when that quantity is positive and none when it is zero or
negative, provided the trial deck holds that many cards. -/
theorem C9_trial_draw_count :
    ∀ (deck board burned : List Card),
      missingCount board burned ≤ deck.length →
      ∃ drawn, trialDrawBoard (DeckRepr.strList deck) board burned =
          Except.ok (board ++ drawn) ∧
        ((0 : Int) < 5 - board.length - burned.length →
          (drawn.length : Int) = 5 - board.length - burned.length) ∧
        (5 - (board.length : Int) - burned.length ≤ 0 → drawn = []) := by
  intro deck board burned h
  obtain ⟨drawn, hd, hlen⟩ := trialDrawBoard_ok deck board burned h
  unfold missingCount at hlen
  refine ⟨drawn, hd, ?_, ?_⟩
  · intro hpos
    omega
  · intro hnp
    have hz : drawn.length = 0 := by omega
    exact List.length_eq_zero.mp hz

/-- C9, witness: the draw-count theorem at an empty board and burned pile
over a five-card trial deck. -/
theorem C9_trial_draw_count_witness :
    ∃ drawn,
      trialDrawBoard (DeckRepr.strList ["2h", "3h", "4h", "5h", "6h"]) [] [] =
        Except.ok ([] ++ drawn) ∧
      ((0 : Int) < 5 - List.length ([] : List Card) - List.length ([] : List Card) →
        (drawn.length : Int) = 5 - List.length ([] : List Card) - List.length ([] : List Card)) ∧
      (5 - (List.length ([] : List Card) : Int) - List.length ([] : List Card) ≤ 0 →
        drawn = []) :=
  C9_trial_draw_count ["2h", "3h", "4h", "5h", "6h"] [] [] (by decide)

/-- C10: `simulate_remaining_game` is deterministic — every one of the 10000
trials is the same fixed function of the persistent state and the supplied
opponent hands (each trial deep-copies the same deck and pops from its end),
so the whole call is decided by a single trial: it returns exactly 1 when
that trial is a win, exactly 0 when it is not, and propagates the trial's
exception otherwise. -/
theorem C10_trials_deterministic :
    ∀ (ef : List Card → List Card → Int) (s : GameState) (hands : List (List Card)),
      (∃ w, simTrial ef s hands = Except.ok w ∧
        simulate_remaining_game ef s hands = Except.ok (if w then (1 : ℚ) else 0)) ∨
      (∃ e, simTrial ef s hands = Except.error e ∧
        simulate_remaining_game ef s hands = Except.error e) := by
  intro ef s hands
  cases h : simTrial ef s hands with
  | ok w => exact Or.inl ⟨w, rfl, simulate_of_trial ef s hands w h⟩
  | error e => exact Or.inr ⟨e, rfl, simulate_of_trial_err ef s hands e h⟩
